import Mathlib

/-!
Verification of the risinglight secondary-storage rowset builder
(src/storage/secondary/rowset/rowset_builder.rs) and of the aggregate
binder (src/binder/expression/agg_call.rs), as a shallow embedding.

File paths are modelled as lists of components; asynchronous file I/O is
modelled as a sequence of I/O operations run against an explicit file
system (the set of existing paths) together with a failure oracle that
says which operations fail at the OS level.
-/

namespace RisingLight

/-! ## Decimal formatting of column ids

Embeds the Rust expression format!("{}", column_info.id()) for a u32 id:
the usual decimal numeral (most significant digit first, "0" for zero). -/

/-- Little-endian list of decimal digit characters of a positive number
(empty for zero, whose digit the caller supplies), with explicit fuel so
the definition is structurally recursive; fuel at least the number itself
is always enough. -/
def decAuxF : Nat → Nat → List Char
  | _, 0 => []
  | 0, _ + 1 => []
  | f + 1, n + 1 => Nat.digitChar ((n + 1) % 10) :: decAuxF f ((n + 1) / 10)

/-- Little-endian list of decimal digit characters of a positive number. -/
def decAux (n : Nat) : List Char := decAuxF n n

/-- Decimal numeral of a natural number, as produced by Rust Display for
unsigned integers: the digits most significant first, and "0" for zero. -/
def decimalStr (n : Nat) : String :=
  if n = 0 then "0" else String.mk (decAux n).reverse

/-- Numeric value of a decimal digit character, inverse to Nat.digitChar
on digits below ten. -/
def charVal (c : Char) : Nat :=
  if c = '0' then 0 else if c = '1' then 1 else if c = '2' then 2
  else if c = '3' then 3 else if c = '4' then 4 else if c = '5' then 5
  else if c = '6' then 6 else if c = '7' then 7 else if c = '8' then 8
  else if c = '9' then 9 else 0

/-- Value of a little-endian digit-character list. -/
def valAux : List Char → Nat
  | [] => 0
  | c :: cs => charVal c + 10 * valAux cs

/-! ## Paths and the column catalog -/

/-- A file-system path, as a list of components (the base directory
components followed by the file name). -/
abbrev FsPath := List String

/-- Column descriptor from the catalog: a stable integer id (u32 in the
source) and a logical data type, kept abstract as a tag since column
encoding is type-dispatched but the orchestrator never inspects it. -/
structure ColumnCatalog where
  id : Nat
  datatype : Nat
deriving DecidableEq, Repr

/-- Options for the column builders; the rowset builder itself reads only
the checksum type, kept as an abstract tag. -/
structure ColumnBuilderOptions where
  checksum_type : Nat
deriving DecidableEq, Repr

/-- Embeds path_of_column: base.join(format!("{}{}", column_info.id(), suffix)). -/
def path_of_column (base : FsPath) (column_info : ColumnCatalog) (suffix : String) :
    FsPath :=
  base ++ [decimalStr column_info.id ++ suffix]

/-- Embeds path_of_data_column. -/
def path_of_data_column (base : FsPath) (column_info : ColumnCatalog) : FsPath :=
  path_of_column base column_info ".col"

/-- Embeds path_of_index_column. -/
def path_of_index_column (base : FsPath) (column_info : ColumnCatalog) : FsPath :=
  path_of_column base column_info ".idx"

/-! ## Batches and column encoders -/

/-- Modelled from the spec: a column array of a batch, as the list of its
values; the storage orchestrator never inspects the element type. -/
abbrev ColArray := List Int

/-- Modelled from the spec: a batch (DataChunk, defined in the array module
outside the storage core) exposes a cardinality and positional access to
one array per column. -/
structure DataChunk where
  arrays : List ColArray
  card : Nat
deriving DecidableEq, Repr

/-- Embeds DataChunk::cardinality. -/
def DataChunk.cardinality (c : DataChunk) : Nat := c.card

/-- Embeds DataChunk::column_count. -/
def DataChunk.column_count (c : DataChunk) : Nat := c.arrays.length

/-- Modelled from the spec: a block-index entry records offset, byte
length, row count and the checksum of the block payload. -/
structure BlockIndexEntry where
  offset : Nat
  blen : Nat
  row_count : Nat
  checksum : Nat
deriving DecidableEq, Repr

/-- Modelled from the spec: the column encoder (ColumnBuilderImpl, outside
the shown core) accumulates the appended arrays in order; no I/O. -/
structure ColumnBuilderImpl where
  datatype : Nat
  options : ColumnBuilderOptions
  appended : List ColArray
deriving DecidableEq, Repr

/-- Embeds ColumnBuilderImpl::new_from_datatype. -/
def ColumnBuilderImpl.new_from_datatype (datatype : Nat)
    (options : ColumnBuilderOptions) : ColumnBuilderImpl :=
  ⟨datatype, options, []⟩

/-- Embeds ColumnBuilderImpl::append: purely in-memory accumulation. -/
def ColumnBuilderImpl.appendArray (b : ColumnBuilderImpl) (a : ColArray) :
    ColumnBuilderImpl :=
  { b with appended := b.appended ++ [a] }

/-- Modelled from the spec: block encoding of one array, abstractly one
byte per value. -/
def encodeArray (a : ColArray) : List Nat := a.map fun v => v.natAbs % 256

/-- Modelled from the spec: block-index entries for the appended arrays,
one block per array, with running byte offsets and the block checksum. -/
def buildEntries : Nat → List ColArray → List BlockIndexEntry
  | _, [] => []
  | off, a :: rest =>
    let bytes := encodeArray a
    ⟨off, bytes.length, a.length, bytes.sum % 256⟩ :: buildEntries (off + bytes.length) rest

/-- Modelled from the spec: finish consumes the encoder and returns the
ordered block-index entries and the concatenated data bytes; the entries'
row counts sum to the total number of appended rows. -/
def ColumnBuilderImpl.finish (b : ColumnBuilderImpl) :
    List BlockIndexEntry × List Nat :=
  (buildEntries 0 b.appended, (b.appended.map encodeArray).flatten)

/-- Modelled from the spec: the index builder (outside the shown core) is
constructed from the checksum configuration and an entry-count hint, takes
entries in order, and serializes them behind a header. -/
structure IndexBuilder where
  checksum_type : Nat
  expected_len : Nat
  entries : List BlockIndexEntry
deriving DecidableEq, Repr

/-- Embeds IndexBuilder::new. -/
def IndexBuilder.new (checksum_type : Nat) (len : Nat) : IndexBuilder :=
  ⟨checksum_type, len, []⟩

/-- Embeds IndexBuilder::append. -/
def IndexBuilder.append (ib : IndexBuilder) (e : BlockIndexEntry) : IndexBuilder :=
  { ib with entries := ib.entries ++ [e] }

/-- Modelled from the spec: serialization of one index entry. -/
def serializeEntry (e : BlockIndexEntry) : List Nat :=
  [e.offset, e.blen, e.row_count, e.checksum]

/-- Modelled from the spec: IndexBuilder::finish emits a header (checksum
algorithm id, entry count) followed by the serialized entries. -/
def IndexBuilder.finish (ib : IndexBuilder) : List Nat :=
  ib.checksum_type :: ib.entries.length :: ib.entries.flatMap serializeEntry

/-! ## The rowset builder -/

/-- Embeds the RowsetBuilder struct. -/
structure RowsetBuilder where
  columns : List ColumnCatalog
  builders : List ColumnBuilderImpl
  directory : FsPath
  row_cnt : Nat
  column_options : ColumnBuilderOptions
deriving DecidableEq, Repr

/-- Embeds RowsetBuilder::new: one column builder per catalog column, in
descriptor order, and a zero row count. -/
def RowsetBuilder.new (columns : List ColumnCatalog) (directory : FsPath)
    (column_options : ColumnBuilderOptions) : RowsetBuilder :=
  { columns := columns
    builders := columns.map fun column =>
      ColumnBuilderImpl.new_from_datatype column.datatype column_options
    directory := directory
    row_cnt := 0
    column_options := column_options }

/-- Modulus of the u32 row counter, 2 ^ 32. -/
def u32Mod : Nat := 4294967296

/-- Embeds the append loop, for idx in 0..chunk.column_count():
builders[idx].append(array_at idx). The result is none exactly when the
indexing self.builders[idx] goes out of bounds, which in the source is an
unrecoverable panic; when the chunk has fewer arrays than there are
builders the loop simply stops, leaving the trailing builders untouched. -/
def appendToBuilders : List ColumnBuilderImpl → List ColArray →
    Option (List ColumnBuilderImpl)
  | bs, [] => some bs
  | b :: bs, a :: rest => (appendToBuilders bs rest).map fun r => b.appendArray a :: r
  | [], _ :: _ => none

/-- Embeds RowsetBuilder::append: row_cnt += chunk.cardinality() as u32
(u32 arithmetic, hence mod 2^32), then the per-column append loop; none
models the source's panic on an out-of-bounds builder index. -/
def RowsetBuilder.append (rb : RowsetBuilder) (chunk : DataChunk) :
    Option RowsetBuilder :=
  let rc := (rb.row_cnt + chunk.cardinality % u32Mod) % u32Mod
  (appendToBuilders rb.builders chunk.arrays).map fun bs =>
    { rb with row_cnt := rc, builders := bs }

/-- Appends a sequence of batches, propagating the panic outcome. -/
def RowsetBuilder.appendAll (rb : RowsetBuilder) : List DataChunk →
    Option RowsetBuilder
  | [] => some rb
  | c :: cs => (rb.append c).bind fun rb2 => rb2.appendAll cs

/-! ## The I/O model

File I/O is modelled as a sequence of operations run against a file
system (the set of existing file paths) and a failure oracle injecting
OS-level errors. A run returns the result, the final file system, and the
trace of the operations that were actually performed (a failed operation
is not performed and ends the run, matching the source's early return on
the first I/O error). -/

/-- One I/O operation issued by the flush path. -/
inductive IoOp where
  | openCreateNew (path : FsPath)
  | writeAll (path : FsPath) (data : List Nat)
  | flushFile (path : FsPath)
  | syncFile (path : FsPath)
  | openDir (path : FsPath)
  | syncDir (path : FsPath)
deriving DecidableEq, Repr

/-- An I/O error: an exclusive create hitting an existing path, or an
OS-level failure injected by the oracle on a given operation. -/
inductive IoError where
  | pathExists (path : FsPath)
  | injected (op : IoOp)
deriving DecidableEq, Repr

/-- The file system: the set of existing file paths. -/
structure Fs where
  files : List FsPath
deriving DecidableEq, Repr

/-- Failure oracle: true means the operation fails at the OS level. -/
abbrev Oracle := IoOp → Bool

/-- Attempts one operation: an exclusive create fails when the path
already exists and otherwise creates the file; every operation can also
fail by oracle injection. -/
def attempt (oracle : Oracle) (fs : Fs) (op : IoOp) : Except IoError Unit × Fs :=
  match op with
  | .openCreateNew p =>
    if p ∈ fs.files then (.error (.pathExists p), fs)
    else if oracle op then (.error (.injected op), fs)
    else (.ok (), ⟨p :: fs.files⟩)
  | _ => if oracle op then (.error (.injected op), fs) else (.ok (), fs)

/-- Outcome of a run: the returned result, the final file system, and the
trace of the operations that were actually performed. -/
structure RunResult where
  res : Except IoError Unit
  fs : Fs
  trace : List IoOp

/-- Runs operations in order, stopping at (and returning) the first
error; the trace lists the operations that were performed. -/
def runOps (oracle : Oracle) : Fs → List IoOp → RunResult
  | fs, [] => ⟨.ok (), fs, []⟩
  | fs, op :: rest =>
    match attempt oracle fs op with
    | (.error e, fs2) => ⟨.error e, fs2, []⟩
    | (.ok _, fs2) =>
      let r := runOps oracle fs2 rest
      ⟨r.res, r.fs, op :: r.trace⟩

/-- Operations of RowsetBuilder::pipe_to_file, in source order: exclusive
create, write_all, flush of the buffered writer, sync_data. -/
def pipeOps (path : FsPath) (data : List Nat) : List IoOp :=
  [.openCreateNew path, .writeAll path data, .flushFile path, .syncFile path]

/-- Embeds RowsetBuilder::pipe_to_file. -/
def pipe_to_file (oracle : Oracle) (fs : Fs) (path : FsPath) (data : List Nat) :
    RunResult :=
  runOps oracle fs (pipeOps path data)

/-- Operations of RowsetBuilder::sync_dir: File::open on the directory,
then sync_data. -/
def syncDirOps (path : FsPath) : List IoOp :=
  [.openDir path, .syncDir path]

/-- Operations of one loop iteration of finish_and_flush: finish the
column builder, pipe the data bytes to the data file, feed every index
entry to a fresh IndexBuilder, pipe its bytes to the index file. -/
def columnOps (dir : FsPath) (options : ColumnBuilderOptions)
    (cb : ColumnCatalog × ColumnBuilderImpl) : List IoOp :=
  let fin := cb.2.finish
  let ib := fin.1.foldl IndexBuilder.append
    (IndexBuilder.new options.checksum_type fin.1.length)
  pipeOps (path_of_data_column dir cb.1) fin.2 ++
    pipeOps (path_of_index_column dir cb.1) ib.finish

/-- The full operation sequence of RowsetBuilder::finish_and_flush. The
bytes are computed purely, and which operation comes next never depends on
an I/O result, so the source's await-and-question-mark chain is exactly
runOps over this static list. -/
def RowsetBuilder.flushOps (rb : RowsetBuilder) : List IoOp :=
  (rb.columns.zip rb.builders).flatMap (columnOps rb.directory rb.column_options) ++
    syncDirOps rb.directory

/-- Embeds RowsetBuilder::finish_and_flush under the I/O model. -/
def RowsetBuilder.finish_and_flush (oracle : Oracle) (fs : Fs)
    (rb : RowsetBuilder) : RunResult :=
  runOps oracle fs rb.flushOps

/-- The exclusive-create paths of an operation sequence. -/
def createPaths : List IoOp → List FsPath
  | [] => []
  | .openCreateNew p :: rest => p :: createPaths rest
  | .writeAll _ _ :: rest => createPaths rest
  | .flushFile _ :: rest => createPaths rest
  | .syncFile _ :: rest => createPaths rest
  | .openDir _ :: rest => createPaths rest
  | .syncDir _ :: rest => createPaths rest

/-! ## Concrete objects used in witnesses -/

/-- A concrete column with id 0. -/
def col0 : ColumnCatalog := ⟨0, 0⟩

/-- A concrete column with id 1. -/
def col1 : ColumnCatalog := ⟨1, 0⟩

/-- Concrete builder options. -/
def opts0 : ColumnBuilderOptions := ⟨0⟩

/-- A concrete rowset directory. -/
def dir0 : FsPath := ["rowset"]

/-- A fresh two-column rowset builder. -/
def rb0 : RowsetBuilder := RowsetBuilder.new [col0, col1] dir0 opts0

/-- An oracle injecting no failures. -/
def oracleNone : Oracle := fun _ => false

/-- An oracle failing every file write. -/
def oracleFailWrite : Oracle := fun op =>
  match op with
  | .writeAll _ _ => true
  | _ => false

/-- The empty file system. -/
def fs0 : Fs := ⟨[]⟩

/-- A batch with one array, narrower than the two-column builder rb0. -/
def chunkNarrow : DataChunk := ⟨[[1, 2, 3]], 3⟩

/-- A batch with three arrays, wider than the two-column builder rb0. -/
def chunkWide : DataChunk := ⟨[[1], [2], [3]], 1⟩

/-- The builder state after appending chunkNarrow twice to rb0. -/
def rbTwo : RowsetBuilder :=
  { columns := [col0, col1],
    builders := [⟨0, opts0, [[1, 2, 3], [1, 2, 3]]⟩, ⟨0, opts0, []⟩],
    directory := dir0, row_cnt := 6, column_options := opts0 }

/-- Description, following the spec's words, of the order of a successful
flush: for each column in descriptor-list order, the data file is
exclusively created, fully written, flushed and synced, then the index
file is exclusively created, written, flushed and synced; after the last
column, the directory is opened and synced as the final step. -/
def specFlushOrder (rb : RowsetBuilder) : List IoOp :=
  ((rb.columns.zip rb.builders).flatMap fun cb =>
    let fin := cb.2.finish
    let ib := fin.1.foldl IndexBuilder.append
      (IndexBuilder.new rb.column_options.checksum_type fin.1.length)
    [IoOp.openCreateNew (path_of_data_column rb.directory cb.1),
     IoOp.writeAll (path_of_data_column rb.directory cb.1) fin.2,
     IoOp.flushFile (path_of_data_column rb.directory cb.1),
     IoOp.syncFile (path_of_data_column rb.directory cb.1),
     IoOp.openCreateNew (path_of_index_column rb.directory cb.1),
     IoOp.writeAll (path_of_index_column rb.directory cb.1) ib.finish,
     IoOp.flushFile (path_of_index_column rb.directory cb.1),
     IoOp.syncFile (path_of_index_column rb.directory cb.1)]) ++
  [IoOp.openDir rb.directory, IoOp.syncDir rb.directory]

/-! ## The aggregate binder (agg_call.rs) -/

/-- Embeds AggKind. -/
inductive AggKind where
  | avg
  | rowCount
  | maxK
  | minK
  | sum
  | count
deriving DecidableEq, Repr

/-- Embeds the used part of the parser's BinaryOperator. -/
inductive BinaryOperator where
  | plus
  | minus
  | multiply
  | divide
deriving DecidableEq, Repr

/-- Embeds DataTypeKind, restricted to the kinds bind_function touches. -/
inductive DataTypeKind where
  | int (width : Option Nat)
  | double
  | char (len : Option Nat)
deriving DecidableEq, Repr

/-- Embeds DataType: a kind together with nullability. -/
structure DataType where
  kind : DataTypeKind
  nullable : Bool
deriving DecidableEq, Repr

/-- Embeds DataType::new. -/
def DataType.new (kind : DataTypeKind) (nullable : Bool) : DataType :=
  ⟨kind, nullable⟩

/-- Embeds BindError abstractly: bind_function constructs no BindError of
its own and only propagates those produced by bind_expr. -/
structure BindError where
  tag : Nat
deriving DecidableEq, Repr

/-- Bound expressions: the BoundExpr variants that bind_function
constructs or inspects, plus other for every other bound expression,
carrying its return type, the only piece bind_function reads. -/
inductive BoundExpr where
  | aggCall (kind : AggKind) (args : List BoundExpr) (return_type : DataType)
  | binaryOp (op : BinaryOperator) (left_expr : BoundExpr) (right_expr : BoundExpr)
      (return_type : Option DataType)
  | typeCast (ty : DataTypeKind) (expr : BoundExpr)
  | other (return_type : Option DataType)

/-- Modelled from the spec: BoundExpr::return_type (defined in the binder
module outside the shown sources) yields the static type of a bound
expression; for the variants built here it is the stored type, and other
nodes carry the type bind_expr assigned them. -/
def BoundExpr.return_type : BoundExpr → Option DataType
  | .aggCall _ _ rt => some rt
  | .binaryOp _ _ _ rt => rt
  | .typeCast ty _ => some (DataType.new ty false)
  | .other rt => rt

/-- An unbound argument expression, opaque: binding it is external. -/
structure Expr where
  tag : Nat
deriving DecidableEq, Repr

/-- Embeds FunctionArgExpr of the parser. -/
inductive FunctionArgExpr where
  | expr (e : Expr)
  | wildcard
  | qualifiedWildcard
deriving DecidableEq, Repr

/-- Embeds FunctionArg of the parser. -/
inductive FunctionArg where
  | named (name : Nat) (arg : FunctionArgExpr)
  | unnamed (arg : FunctionArgExpr)
deriving DecidableEq, Repr

/-- Embeds the parser's Function node: a name and an argument list. -/
structure Function where
  name : String
  args : List FunctionArg
deriving DecidableEq, Repr

/-- Modelled from the spec: the binder context bind_function needs.
bind_expr is the external expression binder; rowcountColumnRef is the
column reference the count-with-no-arguments branch obtains from the
catalog lookup over the context's regular tables, when one exists. -/
structure Binder where
  bindExpr : Expr → Except BindError BoundExpr
  rowcountColumnRef : Option BoundExpr

/-- Outcome of the argument-collection loop: the collected bound
arguments, a propagated bind error, or a panic. -/
inductive ArgsOutcome where
  | ok (args : List BoundExpr)
  | err (e : BindError)
  | panic (msg : String)

/-- Outcome of bind_function: ok and err mirror the source's Result;
panic models the aborts (unsupported function, todo on exotic arguments,
out-of-bounds indexing, unwrap of None), which never return. -/
inductive BindOutcome where
  | ok (e : BoundExpr)
  | err (e : BindError)
  | panic (msg : String)

/-- Embeds the argument loop of bind_function: take the inner argument of
each named or unnamed function argument; bind an expression argument,
propagating bind errors; a wildcard clears the collected arguments and
breaks out of the loop; any other argument form hits a todo panic. -/
def collectArgs (bind : Expr → Except BindError BoundExpr) :
    List FunctionArg → List BoundExpr → ArgsOutcome
  | [], acc => .ok acc
  | a :: rest, acc =>
    let inner := match a with
      | .named _ arg => arg
      | .unnamed arg => arg
    match inner with
    | .expr e =>
      match bind e with
      | .ok b => collectArgs bind rest (acc ++ [b])
      | .error e2 => .err e2
    | .wildcard => .ok []
    | .qualifiedWildcard => .panic "Support aggregate argument"

/-- Embeds to_lowercase on function names, per character on the string's
characters (function names here are plain ASCII identifiers). -/
def strToLower (s : String) : String := String.mk (s.data.map Char.toLower)

/-- Embeds Binder::bind_function: bind the arguments, dispatch on the
lowercased function name to an aggregation kind and return type (an
unsupported name panics), then build the result, rewriting avg into
sum divided by a cast of count. -/
def Binder.bind_function (b : Binder) (func : Function) : BindOutcome :=
  match collectArgs b.bindExpr func.args [] with
  | .err e => .err e
  | .panic m => .panic m
  | .ok args0 =>
    let lname := strToLower func.name
    if lname = "avg" then
      match args0 with
      | [] => .panic "index out of bounds"
      | a0 :: rest =>
        match a0.return_type with
        | none => .panic "called unwrap on a None value"
        | some rt =>
          .ok (.binaryOp .divide
            (.aggCall .sum (a0 :: rest) rt)
            (.typeCast rt.kind
              (.aggCall .count (a0 :: rest) (DataType.new (.int none) false)))
            (some (DataType.new .double false)))
    else if lname = "count" then
      if args0.isEmpty then
        let args1 := match b.rowcountColumnRef with
          | some e => [e]
          | none => []
        .ok (.aggCall .rowCount args1 (DataType.new (.int none) false))
      else
        .ok (.aggCall .count args0 (DataType.new (.int none) false))
    else if lname = "max" then
      match args0 with
      | [] => .panic "index out of bounds"
      | a0 :: rest =>
        match a0.return_type with
        | none => .panic "called unwrap on a None value"
        | some rt => .ok (.aggCall .maxK (a0 :: rest) rt)
    else if lname = "min" then
      match args0 with
      | [] => .panic "index out of bounds"
      | a0 :: rest =>
        match a0.return_type with
        | none => .panic "called unwrap on a None value"
        | some rt => .ok (.aggCall .minK (a0 :: rest) rt)
    else if lname = "sum" then
      match args0 with
      | [] => .panic "index out of bounds"
      | a0 :: rest =>
        match a0.return_type with
        | none => .panic "called unwrap on a None value"
        | some rt => .ok (.aggCall .sum (a0 :: rest) rt)
    else
      .panic ("Unsupported function: " ++ func.name)

/-- A concrete opaque argument expression. -/
def exprA : Expr := ⟨0⟩

/-- A concrete binder whose bind_expr always succeeds with a nullable
integer expression. -/
def binder0 : Binder :=
  { bindExpr := fun _ => .ok (.other (some (DataType.new (.int none) true)))
    rowcountColumnRef := none }

/-- A concrete avg call with one argument. -/
def funcAvg : Function := ⟨"AVG", [.unnamed (.expr exprA)]⟩

/-- A concrete call of an unsupported function with one argument. -/
def funcFoo : Function := ⟨"foo", [.unnamed (.expr exprA)]⟩

theorem charVal_digitChar (d : Nat) (hd : d < 10) :
    charVal (Nat.digitChar d) = d := by
  interval_cases d <;> rfl

theorem valAux_decAuxF : ∀ f n, n ≤ f → valAux (decAuxF f n) = n := by
  intro f
  induction f with
  | zero =>
    intro n hn
    interval_cases n
    rfl
  | succ f ih =>
    intro n hn
    cases n with
    | zero => rfl
    | succ m =>
      have hdiv : (m + 1) / 10 ≤ f := by
        have := Nat.div_lt_self (Nat.succ_pos m) (show 1 < 10 by decide)
        omega
      rw [decAuxF, valAux, charVal_digitChar _ (Nat.mod_lt _ (by decide)), ih _ hdiv]
      omega

theorem valAux_decAux (n : Nat) : valAux (decAux n) = n :=
  valAux_decAuxF n n (Nat.le_refl n)

theorem decAux_injective : Function.Injective decAux := by
  intro a b h
  have ha := valAux_decAux a
  have hb := valAux_decAux b
  rw [h] at ha
  omega

theorem valAux_decimalStr (n : Nat) : valAux (decimalStr n).data.reverse = n := by
  by_cases h : n = 0
  · subst h
    simp [decimalStr, valAux, charVal]
  · simp only [decimalStr, if_neg h]
    simpa using valAux_decAux n

theorem decimalStr_injective : Function.Injective decimalStr := by
  intro a b h
  have ha := valAux_decimalStr a
  have hb := valAux_decimalStr b
  rw [h] at ha
  omega

theorem string_append_right_cancel {a b s : String} (h : a ++ s = b ++ s) :
    a = b := by
  have hd : a.data ++ s.data = b.data ++ s.data := by
    have := congrArg String.data h
    simpa [String.data_append] using this
  exact String.ext (List.append_cancel_right hd)

theorem string_append_left_cancel {a s t : String} (h : a ++ s = a ++ t) :
    s = t := by
  have hd : a.data ++ s.data = a.data ++ t.data := by
    have := congrArg String.data h
    simpa [String.data_append] using this
  exact String.ext (List.append_cancel_left hd)

/-! ## Generic facts about runOps -/

theorem runOps_ok_trace {oracle : Oracle} {ops : List IoOp} : ∀ {fs : Fs},
    (runOps oracle fs ops).res = .ok () → (runOps oracle fs ops).trace = ops := by
  induction ops with
  | nil => intro fs _; rfl
  | cons op rest ih =>
    intro fs h
    simp only [runOps] at h ⊢
    cases hA : attempt oracle fs op with
    | mk res fs3 =>
      rw [hA] at h
      cases res with
      | error e => simp at h
      | ok u => simpa using ih (by simpa using h)

theorem runOps_error_decomp {oracle : Oracle} {e : IoError} {ops : List IoOp} :
    ∀ {fs : Fs}, (runOps oracle fs ops).res = .error e →
    ∃ op suf, ops = (runOps oracle fs ops).trace ++ op :: suf := by
  induction ops with
  | nil => intro fs h; simp [runOps] at h
  | cons op rest ih =>
    intro fs h
    simp only [runOps] at h ⊢
    cases hA : attempt oracle fs op with
    | mk res fs3 =>
      rw [hA] at h
      cases res with
      | error e2 => exact ⟨op, rest, by simp⟩
      | ok u =>
        obtain ⟨op2, suf, hsuf⟩ := ih (by simpa using h)
        exact ⟨op2, suf, by simpa using hsuf⟩

/-- In an early-aborted run, an operation that occurs only as the very
last element of the sequence was never performed. -/
theorem runOps_error_last_not_done {oracle : Oracle} {fs : Fs} {e : IoError}
    {body : List IoOp} {last : IoOp}
    (h : (runOps oracle fs (body ++ [last])).res = .error e)
    (hmem : last ∉ body) : last ∉ (runOps oracle fs (body ++ [last])).trace := by
  obtain ⟨op, suf, hdecomp⟩ := runOps_error_decomp h
  set tr := (runOps oracle fs (body ++ [last])).trace with htr
  intro hin
  have hpre1 : tr <+: body ++ [last] := ⟨op :: suf, hdecomp.symm⟩
  have hpre2 : body <+: body ++ [last] := ⟨[last], rfl⟩
  have hlen : tr.length ≤ body.length := by
    have := congrArg List.length hdecomp
    simp at this
    omega
  have hsub : tr <+: body := List.prefix_of_prefix_length_le hpre1 hpre2 hlen
  exact hmem (hsub.subset hin)

theorem createPaths_append (l1 l2 : List IoOp) :
    createPaths (l1 ++ l2) = createPaths l1 ++ createPaths l2 := by
  induction l1 with
  | nil => rfl
  | cons op rest ih => cases op <;> simp [createPaths, ih]

/-- A run with no injected failures, whose exclusive-create paths are
pairwise distinct and absent from the file system, succeeds, performs
every operation, and creates exactly those paths. -/
theorem runOps_ok_of_fresh {oracle : Oracle} (hor : ∀ op, oracle op = false)
    {ops : List IoOp} : ∀ {fs : Fs}, (createPaths ops).Nodup →
    (∀ p ∈ createPaths ops, p ∉ fs.files) →
    runOps oracle fs ops = ⟨.ok (), ⟨(createPaths ops).reverse ++ fs.files⟩, ops⟩ := by
  induction ops with
  | nil =>
    intro fs _ _
    simp [runOps, createPaths]
  | cons op rest ih =>
    intro fs hnd hfresh
    cases op with
    | openCreateNew p =>
      have hp : p ∉ fs.files := hfresh p (by simp [createPaths])
      have hstep : attempt oracle fs (.openCreateNew p) =
          (.ok (), ⟨p :: fs.files⟩) := by
        simp [attempt, hp, hor]
      have hfresh2 : ∀ q ∈ createPaths rest, q ∉ (Fs.mk (p :: fs.files)).files := by
        intro q hq hqmem
        simp only [createPaths] at hnd hfresh
        rcases List.mem_cons.mp hqmem with hqp | hqf
        · exact (List.nodup_cons.mp hnd).1 (hqp ▸ hq)
        · exact hfresh q (List.mem_cons_of_mem _ hq) hqf
      have hnd2 : (createPaths rest).Nodup := by
        simp only [createPaths] at hnd
        exact List.Nodup.of_cons hnd
      simp only [runOps, hstep, createPaths, ih hnd2 hfresh2]
      simp
    | writeAll q d =>
      have hstep : attempt oracle fs (.writeAll q d) = (.ok (), fs) := by
        simp [attempt, hor]
      simp only [createPaths] at hnd hfresh ⊢
      simp only [runOps, hstep, ih hnd hfresh]
    | flushFile q =>
      have hstep : attempt oracle fs (.flushFile q) = (.ok (), fs) := by
        simp [attempt, hor]
      simp only [createPaths] at hnd hfresh ⊢
      simp only [runOps, hstep, ih hnd hfresh]
    | syncFile q =>
      have hstep : attempt oracle fs (.syncFile q) = (.ok (), fs) := by
        simp [attempt, hor]
      simp only [createPaths] at hnd hfresh ⊢
      simp only [runOps, hstep, ih hnd hfresh]
    | openDir q =>
      have hstep : attempt oracle fs (.openDir q) = (.ok (), fs) := by
        simp [attempt, hor]
      simp only [createPaths] at hnd hfresh ⊢
      simp only [runOps, hstep, ih hnd hfresh]
    | syncDir q =>
      have hstep : attempt oracle fs (.syncDir q) = (.ok (), fs) := by
        simp [attempt, hor]
      simp only [createPaths] at hnd hfresh ⊢
      simp only [runOps, hstep, ih hnd hfresh]

/-! ## Path distinctness -/

theorem data_suffix_ne_index_suffix (s1 s2 : String) :
    s1 ++ ".col" ≠ s2 ++ ".idx" := by
  intro h
  have hd : s1.data ++ (".col").data = s2.data ++ (".idx").data := by
    have := congrArg String.data h
    simpa [String.data_append] using this
  have hlen : s1.data.length = s2.data.length := by
    have hl := congrArg List.length hd
    have h4 : (".col").data.length = 4 := rfl
    have h5 : (".idx").data.length = 4 := rfl
    simp only [List.length_append, h4, h5] at hl
    omega
  have hsuf : (".col").data = (".idx").data := (List.append_inj hd hlen).2
  exact absurd hsuf (by decide)

theorem path_of_data_ne_path_of_index (base : FsPath) (c1 c2 : ColumnCatalog) :
    path_of_data_column base c1 ≠ path_of_index_column base c2 := by
  intro h
  simp only [path_of_data_column, path_of_index_column, path_of_column] at h
  have hlast := List.append_cancel_left h
  have : decimalStr c1.id ++ ".col" = decimalStr c2.id ++ ".idx" := by
    simpa using hlast
  exact data_suffix_ne_index_suffix _ _ this

theorem path_of_data_column_inj (base : FsPath) {c1 c2 : ColumnCatalog}
    (h : path_of_data_column base c1 = path_of_data_column base c2) :
    c1.id = c2.id := by
  simp only [path_of_data_column, path_of_column] at h
  have hlast := List.append_cancel_left h
  have hstr : decimalStr c1.id ++ ".col" = decimalStr c2.id ++ ".col" := by
    simpa using hlast
  exact decimalStr_injective (string_append_right_cancel hstr)

theorem path_of_index_column_inj (base : FsPath) {c1 c2 : ColumnCatalog}
    (h : path_of_index_column base c1 = path_of_index_column base c2) :
    c1.id = c2.id := by
  simp only [path_of_index_column, path_of_column] at h
  have hlast := List.append_cancel_left h
  have hstr : decimalStr c1.id ++ ".idx" = decimalStr c2.id ++ ".idx" := by
    simpa using hlast
  exact decimalStr_injective (string_append_right_cancel hstr)

/-- The data-file and index-file paths of a column list with pairwise
distinct ids are pairwise distinct. -/
theorem flush_paths_nodup (base : FsPath) :
    ∀ (cols : List ColumnCatalog), (cols.map ColumnCatalog.id).Nodup →
    (cols.flatMap fun c =>
      [path_of_data_column base c, path_of_index_column base c]).Nodup := by
  intro cols
  induction cols with
  | nil => intro _; simp
  | cons c cs ih =>
    intro hnd
    simp only [List.map_cons, List.nodup_cons] at hnd
    simp only [List.flatMap_cons]
    rw [List.nodup_append]
    refine ⟨?_, ih hnd.2, ?_⟩
    · simp [path_of_data_ne_path_of_index]
    · intro p hp hq
      simp only [List.mem_cons, List.not_mem_nil, or_false] at hp
      rw [List.mem_flatMap] at hq
      obtain ⟨c2, hc2, hpc2⟩ := hq
      have hid : c.id ≠ c2.id := by
        intro he
        exact hnd.1 (he ▸ List.mem_map_of_mem ColumnCatalog.id hc2)
      simp only [List.mem_cons, List.not_mem_nil, or_false] at hpc2
      rcases hp with hp | hp <;> rcases hpc2 with hq2 | hq2
      · exact hid (path_of_data_column_inj base (hp.symm.trans hq2))
      · exact path_of_data_ne_path_of_index base c c2 (hp.symm.trans hq2)
      · exact path_of_data_ne_path_of_index base c2 c (hq2.symm.trans hp)
      · exact hid (path_of_index_column_inj base (hp.symm.trans hq2))

/-! ## Structure of the flush operation sequence -/

theorem createPaths_pipeOps (p : FsPath) (d : List Nat) :
    createPaths (pipeOps p d) = [p] := rfl

theorem createPaths_flatMap {α : Type} (f : α → List IoOp) (l : List α) :
    createPaths (l.flatMap f) = l.flatMap fun x => createPaths (f x) := by
  induction l with
  | nil => rfl
  | cons x xs ih => simp [createPaths_append, ih]

theorem createPaths_columnOps (dir : FsPath) (options : ColumnBuilderOptions)
    (cb : ColumnCatalog × ColumnBuilderImpl) :
    createPaths (columnOps dir options cb) =
      [path_of_data_column dir cb.1, path_of_index_column dir cb.1] := by
  simp [columnOps, createPaths_append, createPaths_pipeOps]

theorem createPaths_flushOps (rb : RowsetBuilder) :
    createPaths rb.flushOps =
      (rb.columns.zip rb.builders).flatMap fun cb =>
        [path_of_data_column rb.directory cb.1,
         path_of_index_column rb.directory cb.1] := by
  simp [RowsetBuilder.flushOps, createPaths_append, createPaths_flatMap,
    createPaths_columnOps, syncDirOps, createPaths]

theorem flatMap_zip_fst {α β γ : Type} (g : α → List γ) :
    ∀ (l1 : List α) (l2 : List β), l1.length = l2.length →
    ((l1.zip l2).flatMap fun cb => g cb.1) = l1.flatMap g := by
  intro l1
  induction l1 with
  | nil => intro l2 _; simp
  | cons a as ih =>
    intro l2 hlen
    cases l2 with
    | nil => simp at hlen
    | cons b bs => simp [ih bs (by simpa using hlen)]

/-- The directory sync occurs nowhere in the flush sequence except as its
final element. -/
theorem syncDir_not_mem_flush_body (rb : RowsetBuilder) (q : FsPath) :
    IoOp.syncDir q ∉
      (rb.columns.zip rb.builders).flatMap (columnOps rb.directory rb.column_options) ++
        [IoOp.openDir rb.directory] := by
  intro h
  rcases List.mem_append.mp h with h | h
  · rw [List.mem_flatMap] at h
    obtain ⟨cb, _, hmem⟩ := h
    simp [columnOps, pipeOps] at hmem
  · simp at h

theorem flushOps_eq_body_append (rb : RowsetBuilder) :
    rb.flushOps =
      ((rb.columns.zip rb.builders).flatMap (columnOps rb.directory rb.column_options) ++
        [IoOp.openDir rb.directory]) ++ [IoOp.syncDir rb.directory] := by
  simp [RowsetBuilder.flushOps, syncDirOps]

/-! ## Facts about append -/

theorem appendToBuilders_of_le : ∀ (as : List ColArray) (bs : List ColumnBuilderImpl),
    as.length ≤ bs.length →
    appendToBuilders bs as =
      some (((bs.zip as).map fun p => p.1.appendArray p.2) ++ bs.drop as.length) := by
  intro as
  induction as with
  | nil => intro bs _; simp [appendToBuilders]
  | cons a rest ih =>
    intro bs hlen
    cases bs with
    | nil => simp at hlen
    | cons b bs2 =>
      simp only [appendToBuilders, ih bs2 (by simpa using hlen), Option.map_some]
      simp

theorem appendToBuilders_of_gt : ∀ (as : List ColArray) (bs : List ColumnBuilderImpl),
    bs.length < as.length → appendToBuilders bs as = none := by
  intro as
  induction as with
  | nil => intro bs h; simp at h
  | cons a rest ih =>
    intro bs hlen
    cases bs with
    | nil => rfl
    | cons b bs2 =>
      rw [appendToBuilders, ih bs2 (by simpa using hlen)]
      rfl

/-! ## Helper facts for row-count tracking -/

theorem append_some_row_cnt {rb rb2 : RowsetBuilder} {chunk : DataChunk}
    (h : rb.append chunk = some rb2) :
    rb2.row_cnt = (rb.row_cnt + chunk.cardinality % u32Mod) % u32Mod := by
  simp only [RowsetBuilder.append] at h
  cases happ : appendToBuilders rb.builders chunk.arrays with
  | none => rw [happ] at h; simp at h
  | some bs =>
    rw [happ] at h
    have h2 := Option.some.inj h
    rw [← h2]

theorem appendAll_row_cnt : ∀ (chunks : List DataChunk) (rb rb2 : RowsetBuilder),
    rb.row_cnt < u32Mod → rb.appendAll chunks = some rb2 →
    rb2.row_cnt = (rb.row_cnt + (chunks.map DataChunk.cardinality).sum) % u32Mod := by
  intro chunks
  induction chunks with
  | nil =>
    intro rb rb2 hlt h
    simp only [RowsetBuilder.appendAll, Option.some.injEq] at h
    rw [← h]
    simp [Nat.mod_eq_of_lt hlt]
  | cons c cs ih =>
    intro rb rb2 hlt h
    simp only [RowsetBuilder.appendAll] at h
    cases happ : rb.append c with
    | none => rw [happ] at h; simp at h
    | some rb1 =>
      rw [happ] at h
      have h3 : rb1.appendAll cs = some rb2 := h
      have h1 := append_some_row_cnt happ
      have hlt1 : rb1.row_cnt < u32Mod := by
        rw [h1]
        exact Nat.mod_lt _ (by simp [u32Mod])
      have h2 := ih rb1 rb2 hlt1 h3
      rw [h2, h1]
      simp only [List.map_cons, List.sum_cons, u32Mod] at *
      omega

/-! ## Claim theorems for the storage core -/

/-- C1: if any I/O operation of the flush returns an error, the whole
finish_and_flush aborts and returns an error to the caller, and the final
directory sync is never performed. -/
theorem finish_and_flush_error_aborts_no_dir_sync (oracle : Oracle) (fs : Fs)
    (rb : RowsetBuilder) (e : IoError)
    (h : (RowsetBuilder.finish_and_flush oracle fs rb).res = .error e) :
    IoOp.syncDir rb.directory ∉ (RowsetBuilder.finish_and_flush oracle fs rb).trace := by
  simp only [RowsetBuilder.finish_and_flush] at h ⊢
  rw [flushOps_eq_body_append rb] at h ⊢
  exact runOps_error_last_not_done h (syncDir_not_mem_flush_body rb rb.directory)

theorem finish_and_flush_error_witness :
    (RowsetBuilder.finish_and_flush oracleFailWrite fs0 rb0).res =
      Except.error (IoError.injected (IoOp.writeAll (path_of_data_column dir0 col0) [])) ∧
    IoOp.syncDir rb0.directory ∉
      (RowsetBuilder.finish_and_flush oracleFailWrite fs0 rb0).trace :=
  ⟨rfl, finish_and_flush_error_aborts_no_dir_sync oracleFailWrite fs0 rb0 _ rfl⟩

/-- C2: in every successful run of finish_and_flush the performed
operations are exactly, in order: for each column in descriptor-list
order, the data file is created, written, flushed and synced before the
index file is created, written, flushed and synced, and the single
directory sync is the last step, after every per-file sync. -/
theorem finish_and_flush_ok_order (oracle : Oracle) (fs : Fs) (rb : RowsetBuilder)
    (h : (RowsetBuilder.finish_and_flush oracle fs rb).res = .ok ()) :
    (RowsetBuilder.finish_and_flush oracle fs rb).trace = specFlushOrder rb := by
  simp only [RowsetBuilder.finish_and_flush] at h ⊢
  rw [runOps_ok_trace h]
  simp only [RowsetBuilder.flushOps, specFlushOrder, syncDirOps]
  congr 1

theorem finish_and_flush_ok_order_witness :
    (RowsetBuilder.finish_and_flush oracleNone fs0 rb0).res = Except.ok () ∧
    (RowsetBuilder.finish_and_flush oracleNone fs0 rb0).trace = specFlushOrder rb0 :=
  ⟨rfl, finish_and_flush_ok_order oracleNone fs0 rb0 rfl⟩

/-- C4: files are opened with exclusive-create semantics, so a
pre-existing target path fails the open before any byte is written; in
particular a second finish_and_flush against a directory that already
holds the first column's data file fails on that very first exclusive
create, performs no operation, writes nothing, and leaves the file system
unchanged. -/
theorem exclusive_create_second_flush_fails (oracle : Oracle) (fs : Fs)
    (rb : RowsetBuilder) (c0 : ColumnCatalog) (cs : List ColumnCatalog)
    (b0 : ColumnBuilderImpl) (bs : List ColumnBuilderImpl)
    (hc : rb.columns = c0 :: cs) (hb : rb.builders = b0 :: bs)
    (hmem : path_of_data_column rb.directory c0 ∈ fs.files) :
    (∀ (oracle2 : Oracle) (fs2 : Fs) (p : FsPath) (d : List Nat), p ∈ fs2.files →
      pipe_to_file oracle2 fs2 p d = ⟨.error (.pathExists p), fs2, []⟩) ∧
    RowsetBuilder.finish_and_flush oracle fs rb =
      ⟨.error (.pathExists (path_of_data_column rb.directory c0)), fs, []⟩ := by
  constructor
  · intro oracle2 fs2 p d hp
    simp [pipe_to_file, pipeOps, runOps, attempt, hp]
  · simp only [RowsetBuilder.finish_and_flush, RowsetBuilder.flushOps, hc, hb,
      List.zip_cons_cons, List.flatMap_cons, columnOps, pipeOps, List.cons_append]
    simp [runOps, attempt, hmem]

theorem exclusive_create_second_flush_fails_witness :
    RowsetBuilder.finish_and_flush oracleNone
        (RowsetBuilder.finish_and_flush oracleNone fs0 rb0).fs rb0 =
      ⟨.error (.pathExists (path_of_data_column rb0.directory col0)),
       (RowsetBuilder.finish_and_flush oracleNone fs0 rb0).fs, []⟩ :=
  (exclusive_create_second_flush_fails oracleNone
    (RowsetBuilder.finish_and_flush oracleNone fs0 rb0).fs rb0 col0 [col1] _ _
    rfl rfl (by decide)).2

/-- C5: flushing a builder to which zero batches were appended succeeds
(absent injected I/O failures and path collisions), creating the data and
index file of every column, and every column's index has zero total row
count. -/
theorem finish_and_flush_empty_ok (cols : List ColumnCatalog) (dir : FsPath)
    (opts : ColumnBuilderOptions) (oracle : Oracle) (fs : Fs)
    (hor : ∀ op, oracle op = false)
    (hnd : (cols.map ColumnCatalog.id).Nodup)
    (hfresh : ∀ c ∈ cols, path_of_data_column dir c ∉ fs.files ∧
      path_of_index_column dir c ∉ fs.files) :
    (RowsetBuilder.finish_and_flush oracle fs (RowsetBuilder.new cols dir opts)).res =
      .ok () ∧
    (∀ c ∈ cols,
      path_of_data_column dir c ∈
        (RowsetBuilder.finish_and_flush oracle fs (RowsetBuilder.new cols dir opts)).fs.files ∧
      path_of_index_column dir c ∈
        (RowsetBuilder.finish_and_flush oracle fs (RowsetBuilder.new cols dir opts)).fs.files) ∧
    (∀ b ∈ (RowsetBuilder.new cols dir opts).builders,
      ((b.finish.1.map BlockIndexEntry.row_count).sum = 0)) := by
  have hcp : createPaths (RowsetBuilder.new cols dir opts).flushOps =
      cols.flatMap fun c => [path_of_data_column dir c, path_of_index_column dir c] := by
    rw [createPaths_flushOps]
    exact flatMap_zip_fst
      (fun c => [path_of_data_column dir c, path_of_index_column dir c]) cols
      (cols.map fun c => ColumnBuilderImpl.new_from_datatype c.datatype opts)
      (by simp)
  have hnodup : (createPaths (RowsetBuilder.new cols dir opts).flushOps).Nodup := by
    rw [hcp]; exact flush_paths_nodup dir cols hnd
  have hfresh2 : ∀ p ∈ createPaths (RowsetBuilder.new cols dir opts).flushOps,
      p ∉ fs.files := by
    rw [hcp]
    intro p hp
    rw [List.mem_flatMap] at hp
    obtain ⟨c, hc, hpc⟩ := hp
    simp only [List.mem_cons, List.not_mem_nil, or_false] at hpc
    rcases hpc with hpc | hpc
    · exact hpc ▸ (hfresh c hc).1
    · exact hpc ▸ (hfresh c hc).2
  have hrun := runOps_ok_of_fresh hor hnodup hfresh2
  refine ⟨?_, ?_, ?_⟩
  · simp only [RowsetBuilder.finish_and_flush]
    rw [hrun]
  · intro c hc
    simp only [RowsetBuilder.finish_and_flush]
    rw [hrun]
    constructor
    · apply List.mem_append_left
      rw [List.mem_reverse, hcp, List.mem_flatMap]
      exact ⟨c, hc, by simp⟩
    · apply List.mem_append_left
      rw [List.mem_reverse, hcp, List.mem_flatMap]
      exact ⟨c, hc, by simp⟩
  · intro b hb
    simp only [RowsetBuilder.new] at hb
    rw [List.mem_map] at hb
    obtain ⟨c, _, hc⟩ := hb
    rw [← hc]
    rfl

theorem finish_and_flush_empty_ok_witness :
    (RowsetBuilder.finish_and_flush oracleNone fs0
      (RowsetBuilder.new [col0, col1] dir0 opts0)).res = .ok () :=
  (finish_and_flush_empty_ok [col0, col1] dir0 opts0 oracleNone fs0
    (fun _ => rfl) (by decide)
    (by intro c hc; constructor <;> simp [fs0])).1

/-- C6: the row counter is zero after new, each successful append adds
the batch's cardinality modulo 2^32, and after a successful sequence of
appends the counter equals the sum of the cardinalities modulo 2^32. -/
theorem row_cnt_tracking (cols : List ColumnCatalog) (dir : FsPath)
    (opts : ColumnBuilderOptions) :
    (RowsetBuilder.new cols dir opts).row_cnt = 0 ∧
    (∀ (rb rb2 : RowsetBuilder) (chunk : DataChunk), rb.append chunk = some rb2 →
      rb2.row_cnt = (rb.row_cnt + chunk.cardinality) % u32Mod) ∧
    (∀ (chunks : List DataChunk) (rb2 : RowsetBuilder),
      (RowsetBuilder.new cols dir opts).appendAll chunks = some rb2 →
      rb2.row_cnt = (chunks.map DataChunk.cardinality).sum % u32Mod) := by
  refine ⟨rfl, ?_, ?_⟩
  · intro rb rb2 chunk h
    rw [append_some_row_cnt h]
    simp only [u32Mod]
    omega
  · intro chunks rb2 h
    have := appendAll_row_cnt chunks (RowsetBuilder.new cols dir opts) rb2
      (by simp [RowsetBuilder.new, u32Mod]) h
    simpa [RowsetBuilder.new] using this

theorem row_cnt_tracking_witness :
    rbTwo.row_cnt = ([chunkNarrow, chunkNarrow].map DataChunk.cardinality).sum % u32Mod :=
  (row_cnt_tracking [col0, col1] dir0 opts0).2.2 [chunkNarrow, chunkNarrow] rbTwo rfl

/-- C7: data and index paths are deterministic (base joined with the
decimal column id and the fixed suffix), the two paths of one column
differ, and distinct column ids yield distinct file paths. -/
theorem column_paths_deterministic_distinct :
    (∀ (base : FsPath) (c : ColumnCatalog),
      path_of_data_column base c = base ++ [decimalStr c.id ++ ".col"] ∧
      path_of_index_column base c = base ++ [decimalStr c.id ++ ".idx"] ∧
      path_of_data_column base c ≠ path_of_index_column base c) ∧
    (∀ (base : FsPath) (c1 c2 : ColumnCatalog), c1.id ≠ c2.id →
      path_of_data_column base c1 ≠ path_of_data_column base c2 ∧
      path_of_index_column base c1 ≠ path_of_index_column base c2) := by
  constructor
  · intro base c
    exact ⟨rfl, rfl, path_of_data_ne_path_of_index base c c⟩
  · intro base c1 c2 hne
    exact ⟨fun h => hne (path_of_data_column_inj base h),
           fun h => hne (path_of_index_column_inj base h)⟩

theorem column_paths_witness :
    path_of_data_column dir0 col0 ≠ path_of_index_column dir0 col0 ∧
    path_of_data_column dir0 col0 ≠ path_of_data_column dir0 col1 :=
  ⟨(column_paths_deterministic_distinct.1 dir0 col0).2.2,
   (column_paths_deterministic_distinct.2 dir0 col0 col1 (by decide)).1⟩

/-- C8: new creates exactly one column builder per descriptor in order,
and a successful finish_and_flush creates exactly one data file and one
index file per descriptor, in descriptor order, and no others. -/
theorem one_file_pair_per_column (cols : List ColumnCatalog) (dir : FsPath)
    (opts : ColumnBuilderOptions) :
    (RowsetBuilder.new cols dir opts).builders =
      cols.map (fun c => ColumnBuilderImpl.new_from_datatype c.datatype opts) ∧
    (∀ (rb : RowsetBuilder) (oracle : Oracle) (fs : Fs),
      rb.builders.length = rb.columns.length →
      (RowsetBuilder.finish_and_flush oracle fs rb).res = .ok () →
      createPaths (RowsetBuilder.finish_and_flush oracle fs rb).trace =
        rb.columns.flatMap fun c =>
          [path_of_data_column rb.directory c, path_of_index_column rb.directory c]) := by
  refine ⟨rfl, ?_⟩
  intro rb oracle fs hlen h
  simp only [RowsetBuilder.finish_and_flush] at h ⊢
  rw [runOps_ok_trace h, createPaths_flushOps]
  exact flatMap_zip_fst
    (fun c => [path_of_data_column rb.directory c, path_of_index_column rb.directory c])
    rb.columns rb.builders hlen.symm

theorem one_file_pair_per_column_witness :
    createPaths (RowsetBuilder.finish_and_flush oracleNone fs0 rb0).trace =
      rb0.columns.flatMap (fun c =>
        [path_of_data_column rb0.directory c, path_of_index_column rb0.directory c]) :=
  (one_file_pair_per_column [col0, col1] dir0 opts0).2 rb0 oracleNone fs0 rfl rfl

/-- C3 counterexample: a batch whose array count (1) differs from the
builder's descriptor count (2) is appended without any error: append
returns normally, the row total is incremented, the first builder
receives the array and the trailing builder receives nothing, refuting
the claimed fail-fast shape validation. -/
theorem append_shape_counterexample :
    chunkNarrow.column_count ≠ rb0.columns.length ∧
    rb0.append chunkNarrow =
      some { columns := [col0, col1],
             builders := [⟨0, opts0, [[1, 2, 3]]⟩, ⟨0, opts0, []⟩],
             directory := dir0, row_cnt := 3, column_options := opts0 } :=
  ⟨by decide, by rfl⟩

/-- C3 amended: append performs no shape validation: a batch with at most
as many arrays as descriptors is accepted, appending positionally and
leaving trailing builders untouched while still adding the full
cardinality to the row total; a batch with more arrays than descriptors
aborts with an index-out-of-bounds panic, not a recoverable error. -/
theorem append_no_shape_validation (rb : RowsetBuilder) (chunk : DataChunk) :
    (chunk.column_count ≤ rb.builders.length →
      rb.append chunk = some { rb with
        row_cnt := (rb.row_cnt + chunk.cardinality % u32Mod) % u32Mod,
        builders := ((rb.builders.zip chunk.arrays).map fun p => p.1.appendArray p.2) ++
          rb.builders.drop chunk.column_count }) ∧
    (rb.builders.length < chunk.column_count → rb.append chunk = none) := by
  constructor
  · intro hle
    simp only [DataChunk.column_count] at hle
    simp only [RowsetBuilder.append,
      appendToBuilders_of_le chunk.arrays rb.builders hle, DataChunk.column_count]
    rfl
  · intro hgt
    simp only [DataChunk.column_count] at hgt
    simp only [RowsetBuilder.append,
      appendToBuilders_of_gt chunk.arrays rb.builders hgt]
    rfl

theorem append_no_shape_validation_witness :
    rb0.append chunkNarrow =
      some { rb0 with
        row_cnt := (rb0.row_cnt + chunkNarrow.cardinality % u32Mod) % u32Mod,
        builders := ((rb0.builders.zip chunkNarrow.arrays).map fun p =>
          p.1.appendArray p.2) ++ rb0.builders.drop chunkNarrow.column_count } ∧
    rb0.append chunkWide = none :=
  ⟨(append_no_shape_validation rb0 chunkNarrow).1 (by decide),
   (append_no_shape_validation rb0 chunkWide).2 (by decide)⟩

/-! ## Claim theorems for the aggregate binder -/

/-- C9: when the lowercased function name is avg, every value
bind_function returns is a Divide whose left operand is a Sum aggregate
over the bound arguments and whose right operand is a cast, to the first
argument's type, of a Count aggregate over the same arguments, with
return type non-nullable Double; it is never an Avg aggregate call. -/
theorem bind_function_avg_rewrites (b : Binder) (func : Function) (e : BoundExpr)
    (hname : strToLower func.name = "avg")
    (h : b.bind_function func = .ok e) :
    (∀ args rt, e ≠ .aggCall .avg args rt) ∧
    ∃ a0 rest rt,
      collectArgs b.bindExpr func.args [] = .ok (a0 :: rest) ∧
      BoundExpr.return_type a0 = some rt ∧
      e = .binaryOp .divide
        (.aggCall .sum (a0 :: rest) rt)
        (.typeCast rt.kind
          (.aggCall .count (a0 :: rest) (DataType.new (.int none) false)))
        (some (DataType.new .double false)) := by
  simp only [Binder.bind_function] at h
  cases hc : collectArgs b.bindExpr func.args [] with
  | err e2 => rw [hc] at h; simp at h
  | panic m => rw [hc] at h; simp at h
  | ok args0 =>
    rw [hc] at h
    simp only [hname, if_pos] at h
    cases args0 with
    | nil => simp at h
    | cons a0 rest =>
      replace h :
          (match a0.return_type with
            | none => BindOutcome.panic "called unwrap on a None value"
            | some rt =>
              BindOutcome.ok (.binaryOp .divide
                (.aggCall .sum (a0 :: rest) rt)
                (.typeCast rt.kind
                  (.aggCall .count (a0 :: rest) (DataType.new (.int none) false)))
                (some (DataType.new .double false)))) = BindOutcome.ok e := h
      cases hrt : BoundExpr.return_type a0 with
      | none => rw [hrt] at h; simp at h
      | some rt =>
        rw [hrt] at h
        simp only [BindOutcome.ok.injEq] at h
        refine ⟨?_, a0, rest, rt, rfl, hrt, h.symm⟩
        intro args rt2 hcontra
        rw [hcontra] at h
        simp at h

theorem bind_function_avg_witness :
    BoundExpr.binaryOp .divide
        (.aggCall .sum [.other (some (DataType.new (.int none) true))]
          (DataType.new (.int none) true))
        (.typeCast (DataTypeKind.int none)
          (.aggCall .count [.other (some (DataType.new (.int none) true))]
            (DataType.new (.int none) false)))
        (some (DataType.new .double false)) ≠
      BoundExpr.aggCall .avg [] (DataType.new .double false) :=
  (bind_function_avg_rewrites binder0 funcAvg _ (by decide) rfl).1 [] _

/-- C10: a function whose lowercased name is none of avg, count, max,
min, sum is never bound successfully, and whenever its arguments
themselves bind without error the outcome is the unsupported-function
panic, an unrecoverable abort rather than a returned BindError. -/
theorem bind_function_unsupported_panics (b : Binder) (func : Function)
    (hname : strToLower func.name ∉ (["avg", "count", "max", "min", "sum"] : List String)) :
    (∀ e, b.bind_function func ≠ .ok e) ∧
    (∀ args0, collectArgs b.bindExpr func.args [] = .ok args0 →
      b.bind_function func = .panic ("Unsupported function: " ++ func.name)) := by
  simp only [List.mem_cons, List.not_mem_nil, or_false, not_or] at hname
  obtain ⟨h1, h2, h3, h4, h5⟩ := hname
  constructor
  · intro e hok
    simp only [Binder.bind_function] at hok
    cases hc : collectArgs b.bindExpr func.args [] with
    | err e2 => rw [hc] at hok; simp at hok
    | panic m => rw [hc] at hok; simp at hok
    | ok args0 =>
      rw [hc] at hok
      simp only [h1, h2, h3, h4, h5, if_false, ite_false] at hok
      simp at hok
  · intro args0 hc
    simp only [Binder.bind_function, hc]
    simp [h1, h2, h3, h4, h5]

theorem bind_function_unsupported_witness :
    binder0.bind_function funcFoo = .panic ("Unsupported function: " ++ "foo") :=
  (bind_function_unsupported_panics binder0 funcFoo (by decide)).2
    [.other (some (DataType.new (.int none) true))] rfl

end RisingLight
